import Mathlib

/-!
Shallow embedding of the Device Storage Survey & Folder-Size Ranking
subsystem of `adb_utils.py`.

External effects are made explicit: the remote command transport is a
parameter `adb : String → CmdResult` mapping a command line to the
(success, stdout, stderr) triple the device returns, and the outcome of
the local process launcher in `run_adb_command` is an explicit
`ExecOutcome` value (one constructor per branch of the source's
`try`/`except`).  Python string operations (`strip`, `split`,
`splitlines`, `int`, `float`) are re-implemented as structurally
recursive functions on `List Char` so that every definition evaluates
inside the kernel.  Python floats are embedded as `ℚ`; `int`/`float`
are modelled on the decimal forms the device emits (optional sign,
digits, fraction, exponent), not on exotic literals (`inf`, `nan`,
underscores).
-/

/-- Python `str.strip()` on a character list: drop leading and trailing
whitespace. -/
def stripL (cs : List Char) : List Char :=
  ((cs.dropWhile Char.isWhitespace).reverse.dropWhile Char.isWhitespace).reverse

/-- Python `str.split(sep)` for a one-character separator, on character
lists.  `splitChL sep [] = [[]]`, matching Python's `"".split(sep) == [""]`. -/
def splitChL (sep : Char) : List Char → List (List Char)
  | [] => [[]]
  | c :: cs =>
    match splitChL sep cs with
    | [] => [[]]
    | t :: ts => if c = sep then [] :: t :: ts else (c :: t) :: ts

/-- Helper for Python `str.split()` (no argument): accumulate the current
token (reversed) and emit maximal runs of non-whitespace characters. -/
def splitWsAux (cur : List Char) : List Char → List (List Char)
  | [] => if cur = [] then [] else [cur.reverse]
  | c :: cs =>
    if c.isWhitespace then
      if cur = [] then splitWsAux [] cs else cur.reverse :: splitWsAux [] cs
    else
      splitWsAux (c :: cur) cs

/-- Python `str.strip()`. -/
def pyStrip (s : String) : String := String.mk (stripL s.data)

/-- Python `str.split()` with no argument: whitespace runs separate
tokens and empty tokens are dropped. -/
def pySplitWs (s : String) : List String := (splitWsAux [] s.data).map String.mk

/-- Python `str.split('\n')`.  Also used to model `str.splitlines()`:
for the `\n`-separated output consumed here the two only differ on a
trailing newline, and every consumer filters out the resulting empty
entry. -/
def pySplitNl (s : String) : List String := (splitChL '\n' s.data).map String.mk

/-- Python `str.split('\t')`. -/
def pySplitTab (s : String) : List String := (splitChL '\t' s.data).map String.mk

/-- Accumulate a decimal-digit run: returns the value accumulated so far,
the number of digits consumed, and the rest of the input. -/
def takeDigitsAux (acc k : ℕ) : List Char → ℕ × ℕ × List Char
  | [] => (acc, k, [])
  | c :: cs =>
    if c.isDigit then takeDigitsAux (acc * 10 + (c.toNat - 48)) (k + 1) cs
    else (acc, k, c :: cs)

/-- Value of a nonempty all-digit run, `none` otherwise. -/
def digitsAux (acc : ℕ) : List Char → Option ℕ
  | [] => some acc
  | c :: cs =>
    if c.isDigit then digitsAux (acc * 10 + (c.toNat - 48)) cs else none

/-- Python `int(s)` needs at least one digit. -/
def allDigitsVal : List Char → Option ℕ
  | [] => none
  | cs => digitsAux 0 cs

/-- Python `int(s)` on decimal literals: optional surrounding whitespace,
optional sign, digits; `none` models the `ValueError` the source catches. -/
def pyToInt (s : String) : Option ℤ :=
  match stripL s.data with
  | '-' :: r => (allDigitsVal r).map (fun n => -(n : ℤ))
  | '+' :: r => (allDigitsVal r).map (fun n => (n : ℤ))
  | r => (allDigitsVal r).map (fun n => (n : ℤ))

/-- Exponent digits of a float literal: all remaining characters must be
digits and at least one must be present. -/
def expDigits (cs : List Char) : Option ℕ :=
  let (e, n, rest) := takeDigitsAux 0 0 cs
  if n = 0 ∨ rest ≠ [] then none else some e

/-- Optional exponent suffix of a Python float literal applied to an
already-parsed mantissa. -/
def pyFloatExpPart (m : ℚ) : List Char → Option ℚ
  | [] => some m
  | c :: cs =>
    if c = 'e' ∨ c = 'E' then
      match cs with
      | '-' :: r => (expDigits r).map (fun e => m / 10 ^ e)
      | '+' :: r => (expDigits r).map (fun e => m * 10 ^ e)
      | r => (expDigits r).map (fun e => m * 10 ^ e)
    else none

/-- Unsigned part of a Python float literal: digits, optional fraction,
optional exponent. -/
def pyFloatMag (cs : List Char) : Option ℚ :=
  let (ip, ipn, rest) := takeDigitsAux 0 0 cs
  match rest with
  | '.' :: r =>
    let (fp, fpn, r2) := takeDigitsAux 0 0 r
    if ipn = 0 ∧ fpn = 0 then none
    else pyFloatExpPart ((ip : ℚ) + (fp : ℚ) / 10 ^ fpn) r2
  | r => if ipn = 0 then none else pyFloatExpPart (ip : ℚ) r

/-- Python `float(s)` on decimal literals, embedded into `ℚ`; `none`
models the `ValueError` the source catches. -/
def pyFloatL (cs : List Char) : Option ℚ :=
  match stripL cs with
  | '-' :: r => (pyFloatMag r).map (fun q => -q)
  | '+' :: r => pyFloatMag r
  | r => pyFloatMag r

/-- Python `float(s)` on a `String`. -/
def pyFloat (s : String) : Option ℚ := pyFloatL s.data

/-- Decimal digits of `n` (most significant first); the first argument is
structural fuel, always called with fuel `> n`'s digit count. -/
def natDigitsAux : ℕ → ℕ → List Char
  | 0, _ => []
  | fuel + 1, n =>
    if n = 0 then [] else natDigitsAux fuel (n / 10) ++ [Char.ofNat (48 + n % 10)]

/-- Decimal rendering of a natural number. -/
def natToStr (n : ℕ) : String :=
  if n = 0 then "0" else String.mk (natDigitsAux (n + 1) n)

/-- Two-digit zero-padded rendering, for the cents of a `%.2f` format. -/
def pad2 (n : ℕ) : String := if n < 10 then "0" ++ natToStr n else natToStr n

/-- Round to the nearest integer, ties to even, as float formatting does. -/
def roundHalfEven (q : ℚ) : ℤ :=
  let f := ⌊q⌋
  let r := q - (f : ℚ)
  if r < 1 / 2 then f
  else if 1 / 2 < r then f + 1
  else if f % 2 = 0 then f else f + 1

/-- Python `f"{q:.2f}"`: the embedding formats the exact rational with
two decimal places (the source formats an IEEE double; the two agree on
the short decimal values this program produces). -/
def format2f (q : ℚ) : String :=
  let c := (roundHalfEven (|q| * 100)).toNat
  (if q < 0 then "-" else "") ++ natToStr (c / 100) ++ "." ++ pad2 (c % 100)

/-- Result of one remote command invocation (`RemoteCommandResult`). -/
structure CmdResult where
  success : Bool
  stdout : String
  stderr : String
deriving DecidableEq

/-- The four ways `subprocess.run(..., check=True)` can end in
`run_adb_command`, one constructor per branch of the source's
`try`/`except`: normal zero-exit completion, `CalledProcessError`
(non-zero exit, carrying the process's captured output), a
`FileNotFoundError` (the `adb` binary is missing), or any other
exception (carrying its rendered message). -/
inductive ExecOutcome where
  | completed (stdout stderr : String)
  | nonZeroExit (stdout stderr : String)
  | toolNotFound
  | unexpected (msg : String)
deriving DecidableEq

/-- The fixed diagnostic for a missing `adb` binary. -/
def adbNotFoundMsg : String :=
  "Error: \x27adb\x27 command not found. Please ensure ADB is installed and added to your system\x27s PATH."

/-- Embedding of `run_adb_command` from `adb_utils.py`: returns
`(success, stdout, stderr)`, never propagating an exception. -/
def run_adb_command : ExecOutcome → Bool × String × String
  | .completed out err => (true, out, err)
  | .nonZeroExit out err => (false, out, err)
  | .toolNotFound => (false, "", adbNotFoundMsg)
  | .unexpected m => (false, "", "An unexpected error occurred: " ++ m)

/-- One entry of the list `get_storage_details` returns: the dictionary
with keys `name`, `path`, `total_gb`, `used_gb`, `available_gb`,
`percentage_used`. -/
structure StorageDetail where
  name : String
  path : String
  total_gb : String
  used_gb : String
  available_gb : String
  percentage_used : String
deriving DecidableEq

/-- The hard-coded internal-storage alias set of `get_storage_details`
(used for both `is_internal_canonical_path` and `is_df_internal_mount`). -/
def isInternalAlias (s : String) : Prop :=
  s = "/storage/emulated/0" ∨ s = "/storage/emulated" ∨ s = "/sdcard"

instance (s : String) : Decidable (isInternalAlias s) := by
  unfold isInternalAlias; infer_instance

/-- The body of the df-line loop of `get_storage_details`, applied to the
whitespace tokens of one `df -k` line: require at least six tokens, take
the mount point from the last token, match it exactly against `path` or
via the internal alias set, then convert tokens 1..3 with `int` (the
caught `ValueError` becomes `none`). -/
def parseDfTokens (path : String) (parts : List String) : Option (ℤ × ℤ × ℤ) :=
  if 6 ≤ parts.length then
    let mp := parts.getLastD ""
    if mp = path ∨ (isInternalAlias path ∧ isInternalAlias mp) then
      match pyToInt (parts.getD 1 ""), pyToInt (parts.getD 2 ""), pyToInt (parts.getD 3 "") with
      | some t, some u, some a => some (t, u, a)
      | _, _, _ => none
    else none
  else none

/-- One iteration of the df-line loop on a raw line. -/
def parseDfLine (path line : String) : Option (ℤ × ℤ × ℤ) :=
  parseDfTokens path (pySplitWs line)

/-- The df-line loop: first line that both matches `path` (exactly or via
the alias set) and parses wins; a matching line whose numeric columns
fail to parse is skipped (`continue` in the source). -/
def findDfData (path : String) : List String → Option (ℤ × ℤ × ℤ)
  | [] => none
  | l :: ls =>
    match parseDfLine path l with
    | some v => some v
    | none => findDfData path ls

/-- The df lines `get_storage_details` works from: `stdout.strip().split('\n')`
of one `adb shell df -k` call when it succeeds, `[]` otherwise. -/
def dfLines (adb : String → CmdResult) : List String :=
  let r := adb "adb shell df -k"
  if r.success then pySplitNl (pyStrip r.stdout) else []

/-- Capacity formatting `f"{kblocks / 1024**2:.2f} GB"`. -/
def fmtGB (k : ℤ) : String := format2f ((k : ℚ) / 1024 ^ 2) ++ " GB"

/-- Percentage formatting `f"{(used / total) * 100 if total > 0 else 0:.2f}%"`. -/
def fmtPct (u t : ℤ) : String :=
  format2f (if 0 < t then (u : ℚ) / (t : ℚ) * 100 else 0) ++ "%"

/-- One loop iteration of `get_storage_details`: the detail dictionary
for one `(name, path)` candidate, all four capacity fields `"N/A"` unless
a df row matched and parsed. -/
def storageDetailFor (dfLs : List String) (nm : String × String) : StorageDetail :=
  match findDfData nm.2 dfLs with
  | some (t, u, a) =>
    { name := nm.1, path := nm.2
      total_gb := fmtGB t
      used_gb := fmtGB u
      available_gb := fmtGB a
      percentage_used := fmtPct u t }
  | none =>
    { name := nm.1, path := nm.2
      total_gb := "N/A", used_gb := "N/A"
      available_gb := "N/A", percentage_used := "N/A" }

/-- Embedding of `get_storage_details` from `adb_utils.py`.  The volume candidates
(computed by the out-of-scope `adb_Browse.get_device_storages`) and the
device transport are explicit parameters. -/
def get_storage_details (storages : List (String × String))
    (adb : String → CmdResult) : List StorageDetail :=
  storages.map (storageDetailFor (dfLines adb))

/-- The listing command of `get_top_large_folders`. -/
def lsCmd (path : String) : String := "adb shell ls -aF \"" ++ path ++ "\""

/-- The per-item disk-usage command of `get_top_large_folders`. -/
def duCmd (item : String) : String := "adb shell du -sh \"" ++ item ++ "\""

/-- The stripped listing entries kept by `get_top_large_folders`:
empty names and the `.` and `..` links are dropped. -/
def entryNames (out : String) : List String :=
  ((pySplitNl out).map pyStrip).filter (fun s => s ≠ "" ∧ s ≠ "." ∧ s ≠ "..")

/-- Python `os.path.join(path, name)` under POSIX rules. -/
def osJoin (path name : String) : String :=
  if name.data.head? = some '/' then name
  else if path = "" ∨ path.data.getLast? = some '/' then path ++ name
  else path ++ "/" ++ name

/-- Python `.replace("\\", "/")`: a one-character replacement is a character map. -/
def replaceBS (s : String) : String :=
  String.mk (s.data.map (fun c => if c = '\\' then '/' else c))

/-- The `potential_items` list: the absolute child path built for each kept entry. -/
def potentialItems (path out : String) : List String :=
  (entryNames out).map (fun n => replaceBS (osJoin path n))

/-- The size-string parser inside `get_top_large_folders`: an alphabetic
trailing character selects the multiplier applied to the `float` value of
the rest (`G`/`M`/`K` binary multiples, `B` or no letter means bytes, any
other letter falls back to 0); a failed `float` (`ValueError`) is `none`. -/
def parseSizeBytes (sizeStr : String) : Option ℚ :=
  match sizeStr.data.getLast? with
  | some c =>
    if c.isAlpha then
      match pyFloat (String.mk sizeStr.data.dropLast) with
      | some v =>
        some (if c.toUpper = 'G' then v * 1024 ^ 3
              else if c.toUpper = 'M' then v * 1024 ^ 2
              else if c.toUpper = 'K' then v * 1024
              else if c.toUpper = 'B' then v
              else 0)
      | none => none
    else pyFloat sizeStr
  | none => pyFloat sizeStr

/-- Parse one `du -sh` stdout: strip it, require exactly two
tab-separated fields, and normalize the stripped size string to bytes;
returns the byte count and the size string kept for display. -/
def parseDuStdout (stdout : String) : Option (ℚ × String) :=
  match pySplitTab (pyStrip stdout) with
  | [sz, _p] =>
    let sizeStr := pyStrip sz
    match parseSizeBytes sizeStr with
    | some b => some (b, sizeStr)
    | none => none
  | _ => none

/-- The `folder_sizes_raw` list: one `du -sh` call per child path; items whose
call fails, returns empty output, has the wrong shape, or whose size
fails to parse contribute nothing. -/
def folderSizesRaw (adb : String → CmdResult) (items : List String) :
    List (ℚ × String) :=
  items.filterMap (fun item =>
    let r := adb (duCmd item)
    if r.success ∧ r.stdout ≠ "" then
      match parseDuStdout r.stdout with
      | some (b, sizeStr) => some (b, sizeStr ++ " " ++ item)
      | none => none
    else none)

/-- The ordering `folder_sizes_raw.sort(key=lambda x: x[0], reverse=True)`
sorts by: descending byte size. -/
def sortRel (a b : ℚ × String) : Prop := b.1 ≤ a.1

instance : DecidableRel sortRel := fun a b => inferInstanceAs (Decidable (b.1 ≤ a.1))

instance : IsTotal (ℚ × String) sortRel := ⟨fun a b => le_total b.1 a.1⟩

instance : IsTrans (ℚ × String) sortRel := ⟨fun _ _ _ h1 h2 => le_trans h2 h1⟩

/-- Embedding of `get_top_large_folders` from `adb_utils.py`: list the children, query
each child's size, sort descending, return the first `count` display
strings.  The device transport is an explicit parameter. -/
def get_top_large_folders (path : String) (count : ℕ := 5)
    (adb : String → CmdResult) : List String :=
  let r := adb (lsCmd path)
  if r.success then
    let items := potentialItems path r.stdout
    if items = [] then []
    else
      (((folderSizesRaw adb items).insertionSort sortRel).take count).map (fun x => x.2)
  else []

/-- The successfully parsed `(bytes, display)` pairs a call works from
(empty when the listing call fails). -/
def parsedEntries (path : String) (adb : String → CmdResult) : List (ℚ × String) :=
  let r := adb (lsCmd path)
  if r.success then folderSizesRaw adb (potentialItems path r.stdout) else []

/-- The ranked `(bytes, display)` pairs: sorted descending, truncated. -/
def rankedPairs (path : String) (count : ℕ) (adb : String → CmdResult) :
    List (ℚ × String) :=
  ((parsedEntries path adb).insertionSort sortRel).take count

/-! ### Helper lemmas -/

theorem string_data_append (s t : String) : (s ++ t).data = s.data ++ t.data := by
  cases s; cases t; rfl

/-- A formatted capacity value always ends in `GB`, so it is never the
`"N/A"` placeholder. -/
theorem fmtGB_ne_NA (k : ℤ) : fmtGB k ≠ "N/A" := by
  intro h
  have hB : 'B' ∈ (format2f ((k : ℚ) / 1024 ^ 2) ++ " GB").data := by
    rw [string_data_append]
    exact List.mem_append_right _ (by decide)
  rw [show fmtGB k = format2f ((k : ℚ) / 1024 ^ 2) ++ " GB" from rfl] at h
  rw [h] at hB
  exact absurd hB (by decide)

/-- A formatted percentage always ends in `%`, so it is never `"N/A"`. -/
theorem fmtPct_ne_NA (u t : ℤ) : fmtPct u t ≠ "N/A" := by
  intro h
  have hB : '%' ∈ (format2f (if 0 < t then (u : ℚ) / (t : ℚ) * 100 else 0) ++ "%").data := by
    rw [string_data_append]
    exact List.mem_append_right _ (by decide)
  rw [show fmtPct u t = format2f (if 0 < t then (u : ℚ) / (t : ℚ) * 100 else 0) ++ "%" from rfl] at h
  rw [h] at hB
  exact absurd hB (by decide)

/-! ### Concrete transports used by witnesses -/

/-- A transport on which every command fails. -/
def adbAllFail : String → CmdResult := fun _ => ⟨false, "", "error: no devices/emulators found"⟩

/-- A transport whose df dump reports a zero-size volume mounted at `/sdcard`. -/
def adbDfZero : String → CmdResult := fun c =>
  if c = "adb shell df -k" then ⟨true, "tmpfs 0 0 0 0% /sdcard", ""⟩ else ⟨false, "", ""⟩

/-- A transport for the spec's sorting example: three children sized
`10M`, `1G`, `500K`. -/
def adbRankThree : String → CmdResult := fun c =>
  if c = lsCmd "/s" then ⟨true, "a\nb\nc", ""⟩
  else if c = duCmd "/s/a" then ⟨true, "10M\t/s/a", ""⟩
  else if c = duCmd "/s/b" then ⟨true, "1G\t/s/b", ""⟩
  else if c = duCmd "/s/c" then ⟨true, "500K\t/s/c", ""⟩
  else ⟨false, "", ""⟩

/-- A transport with eight children carrying unit-less sizes. -/
def adbRankEight : String → CmdResult := fun c =>
  if c = lsCmd "/t" then ⟨true, "a\nb\nc\nd\ne\nf\ng\nh", ""⟩
  else if c = duCmd "/t/a" then ⟨true, "3\t/t/a", ""⟩
  else if c = duCmd "/t/b" then ⟨true, "8\t/t/b", ""⟩
  else if c = duCmd "/t/c" then ⟨true, "1\t/t/c", ""⟩
  else if c = duCmd "/t/d" then ⟨true, "6\t/t/d", ""⟩
  else if c = duCmd "/t/e" then ⟨true, "2\t/t/e", ""⟩
  else if c = duCmd "/t/f" then ⟨true, "7\t/t/f", ""⟩
  else if c = duCmd "/t/g" then ⟨true, "5\t/t/g", ""⟩
  else if c = duCmd "/t/h" then ⟨true, "4\t/t/h", ""⟩
  else ⟨false, "", ""⟩

/-- A transport with two children. -/
def adbRankTwo : String → CmdResult := fun c =>
  if c = lsCmd "/u" then ⟨true, "x\ny", ""⟩
  else if c = duCmd "/u/x" then ⟨true, "2\t/u/x", ""⟩
  else if c = duCmd "/u/y" then ⟨true, "1\t/u/y", ""⟩
  else ⟨false, "", ""⟩

/-- A transport whose listing includes the `.` and `..` links. -/
def adbLsDots : String → CmdResult := fun c =>
  if c = lsCmd "/s" then ⟨true, ".\n..\nx", ""⟩
  else if c = duCmd "/s/x" then ⟨true, "3\t/s/x", ""⟩
  else ⟨false, "", ""⟩

/-! ### C9 -/

/-- C9: `run_adb_command` never lets an exception escape: a non-zero
remote exit yields `(false, stdout, stderr)`; a missing `adb` binary
yields `success = false` with the fixed diagnostic; any other unexpected
failure yields `success = false` with a generic diagnostic; a normal
completion yields `(true, stdout, stderr)`.  Totality over `ExecOutcome`
is the embedding of "never raises". -/
theorem c9_run_adb_command_never_raises :
    (∀ out err, run_adb_command (.completed out err) = (true, out, err)) ∧
    (∀ out err, run_adb_command (.nonZeroExit out err) = (false, out, err)) ∧
    run_adb_command .toolNotFound =
      (false, "", "Error: \x27adb\x27 command not found. Please ensure ADB is installed and added to your system\x27s PATH.") ∧
    (∀ m, run_adb_command (.unexpected m) =
      (false, "", "An unexpected error occurred: " ++ m)) :=
  ⟨fun _ _ => rfl, fun _ _ => rfl, rfl, fun _ => rfl⟩

/-! ### C6 -/

/-- C6: if the initial `df -k` call reports failure, `get_storage_details`
still returns exactly one detail per candidate, in order, with all four
capacity fields `"N/A"` (and, being a total function, it cannot raise). -/
theorem c6_graceful_degradation (storages : List (String × String))
    (adb : String → CmdResult) (h : (adb "adb shell df -k").success = false) :
    get_storage_details storages adb =
      storages.map (fun nm => ⟨nm.1, nm.2, "N/A", "N/A", "N/A", "N/A"⟩) := by
  have hdf : dfLines adb = [] := by simp [dfLines, h]
  unfold get_storage_details
  rw [hdf]
  exact List.map_congr_left fun a _ => rfl

/-- Witness for C6 at a concrete failing transport. -/
theorem c6_witness :
    get_storage_details
      [("Internal Storage", "/storage/emulated/0"), ("SD Card", "/storage/ABCD-1234")]
      adbAllFail =
    [⟨"Internal Storage", "/storage/emulated/0", "N/A", "N/A", "N/A", "N/A"⟩,
     ⟨"SD Card", "/storage/ABCD-1234", "N/A", "N/A", "N/A", "N/A"⟩] :=
  (c6_graceful_degradation _ adbAllFail rfl).trans rfl

/-! ### C10 -/

/-- C10: `get_storage_details` returns one detail per candidate, in input
order, with the candidate's name and path; and its four capacity fields
are all-or-nothing: either all four are `"N/A"`, or all four are computed
from the same single matched df row (and none of them is `"N/A"`). -/
theorem c10_all_or_nothing (storages : List (String × String))
    (adb : String → CmdResult) :
    (get_storage_details storages adb).length = storages.length ∧
    ∀ (i : ℕ) (nm p : String), storages[i]? = some (nm, p) →
      ∃ d, (get_storage_details storages adb)[i]? = some d ∧
        d.name = nm ∧ d.path = p ∧
        ((d.total_gb = "N/A" ∧ d.used_gb = "N/A" ∧ d.available_gb = "N/A" ∧
          d.percentage_used = "N/A") ∨
         ∃ t u a, findDfData p (dfLines adb) = some (t, u, a) ∧
           d.total_gb = fmtGB t ∧ d.used_gb = fmtGB u ∧ d.available_gb = fmtGB a ∧
           d.percentage_used = fmtPct u t ∧ d.total_gb ≠ "N/A" ∧ d.used_gb ≠ "N/A" ∧
           d.available_gb ≠ "N/A" ∧ d.percentage_used ≠ "N/A") := by
  refine ⟨by simp [get_storage_details], ?_⟩
  intro i nm p hi
  refine ⟨storageDetailFor (dfLines adb) (nm, p), ?_, ?_, ?_, ?_⟩
  · simp [get_storage_details, List.getElem?_map, hi]
  · unfold storageDetailFor
    cases hfd : findDfData p (dfLines adb) with
    | none => rfl
    | some v => obtain ⟨t, u, a⟩ := v; rfl
  · unfold storageDetailFor
    cases hfd : findDfData p (dfLines adb) with
    | none => rfl
    | some v => obtain ⟨t, u, a⟩ := v; rfl
  · cases hfd : findDfData p (dfLines adb) with
    | none => left; simp [storageDetailFor, hfd]
    | some v =>
      obtain ⟨t, u, a⟩ := v
      right
      refine ⟨t, u, a, rfl, ?_, ?_, ?_, ?_, ?_, ?_, ?_, ?_⟩ <;>
        simp [storageDetailFor, hfd, fmtGB_ne_NA, fmtPct_ne_NA]

/-- Witness for C10 at a concrete transport and candidate list. -/
theorem c10_witness :
    ∃ d, (get_storage_details [("Internal", "/sdcard")] adbDfZero)[0]? = some d ∧
      d.name = "Internal" ∧ d.path = "/sdcard" ∧
      ((d.total_gb = "N/A" ∧ d.used_gb = "N/A" ∧ d.available_gb = "N/A" ∧
        d.percentage_used = "N/A") ∨
       ∃ t u a, findDfData "/sdcard" (dfLines adbDfZero) = some (t, u, a) ∧
         d.total_gb = fmtGB t ∧ d.used_gb = fmtGB u ∧ d.available_gb = fmtGB a ∧
         d.percentage_used = fmtPct u t ∧ d.total_gb ≠ "N/A" ∧ d.used_gb ≠ "N/A" ∧
         d.available_gb ≠ "N/A" ∧ d.percentage_used ≠ "N/A") :=
  (c10_all_or_nothing [("Internal", "/sdcard")] adbDfZero).2 0 "Internal" "/sdcard" rfl

/-! ### C7 -/

/-- C7: for a matched and parsed df row, the percentage field is
`"0.00%"` when the total column is zero (the guard prevents any division
fault; the embedding is total), and is the used/total ratio times 100
formatted to two decimal places when the total is positive. -/
theorem c7_percentage_guard (adb : String → CmdResult) (nm p : String)
    (t u a : ℤ) (h : findDfData p (dfLines adb) = some (t, u, a)) :
    (t = 0 →
      (get_storage_details [(nm, p)] adb).map StorageDetail.percentage_used = ["0.00%"]) ∧
    (0 < t →
      (get_storage_details [(nm, p)] adb).map StorageDetail.percentage_used =
        [format2f ((u : ℚ) / (t : ℚ) * 100) ++ "%"]) := by
  have hbase : (get_storage_details [(nm, p)] adb).map StorageDetail.percentage_used
      = [fmtPct u t] := by
    simp [get_storage_details, storageDetailFor, h]
  constructor
  · intro ht
    subst ht
    rw [hbase]
    have h0 : fmtPct u 0 = "0.00%" := by
      unfold fmtPct
      rw [if_neg (lt_irrefl (0 : ℤ))]
      with_unfolding_all rfl
    rw [h0]
  · intro ht
    rw [hbase]
    unfold fmtPct
    rw [if_pos ht]

/-- Witness for C7: a df row with a zero total column yields `"0.00%"`. -/
theorem c7_witness :
    (get_storage_details [("Internal", "/sdcard")] adbDfZero).map
      StorageDetail.percentage_used = ["0.00%"] :=
  (c7_percentage_guard adbDfZero "Internal" "/sdcard" 0 0 0 (by decide)).1 rfl

/-! ### C1 -/

/-- C1 counterexample: with volume path `/storage/emulated/0`, an
alias-only row (`/sdcard`, data 1/2/3) placed before the exact-match row
(`/storage/emulated/0`, data 100/40/55) is the one chosen, so the
exact match does not take precedence regardless of row order. -/
theorem c1_counterexample :
    findDfData "/storage/emulated/0"
      ["fs 1 2 3 0% /sdcard", "fs 100 40 55 40% /storage/emulated/0"] = some (1, 2, 3) ∧
    parseDfLine "/storage/emulated/0" "fs 100 40 55 40% /storage/emulated/0"
      = some (100, 40, 55) ∧
    some ((1 : ℤ), (2 : ℤ), (3 : ℤ)) ≠ some ((100 : ℤ), (40 : ℤ), (55 : ℤ)) :=
  ⟨by decide, by decide, by decide⟩

/-- C1 amended: the df-row matching loop is single-pass, testing the
exact and alias criteria together on each row; the chosen row is the
first one (in df output order) that matches either way and parses.  The
exact-match row is chosen whenever no matching row precedes it. -/
theorem c1_first_matching_row_wins (path : String) (pre : List String)
    (line : String) (post : List String) (v : ℤ × ℤ × ℤ)
    (hpre : ∀ l ∈ pre, parseDfLine path l = none)
    (hline : parseDfLine path line = some v) :
    findDfData path (pre ++ line :: post) = some v := by
  induction pre with
  | nil => simp [findDfData, hline]
  | cons x xs ih =>
    have hx : parseDfLine path x = none := hpre x (by simp)
    simp only [List.cons_append, findDfData, hx]
    exact ih fun l hl => hpre l (List.mem_cons.mpr (Or.inr hl))

/-- Witness for C1 amended: the exact row, preceded only by a
non-matching header line, is chosen over a later alias row. -/
theorem c1_witness :
    findDfData "/storage/emulated/0"
      (["Filesystem 1K-blocks Used Available Use% Mounted"] ++
        "fs 100 40 55 40% /storage/emulated/0" :: ["fs 1 2 3 0% /sdcard"])
      = some (100, 40, 55) :=
  c1_first_matching_row_wins "/storage/emulated/0" _ _ _ _ (by decide) (by decide)

/-! ### C5 -/

/-- What the claim calls a valid df row with a given mount point: at
least six whitespace tokens, the last one being the mount point, and
numeric second, third and fourth tokens. -/
def validRowWithMount (line mp : String) : Prop :=
  6 ≤ (pySplitWs line).length ∧ (pySplitWs line).getLastD "" = mp ∧
  (pyToInt ((pySplitWs line).getD 1 "")).isSome = true ∧
  (pyToInt ((pySplitWs line).getD 2 "")).isSome = true ∧
  (pyToInt ((pySplitWs line).getD 3 "")).isSome = true

instance (line mp : String) : Decidable (validRowWithMount line mp) := by
  unfold validRowWithMount; infer_instance

/-- A valid `/sdcard` row matches the volume path `/storage/emulated/0`
via the internal alias set, and parses. -/
theorem parseDfLine_sdcard_isSome (l : String)
    (hval : validRowWithMount l "/sdcard") :
    (parseDfLine "/storage/emulated/0" l).isSome = true := by
  obtain ⟨hlen, hlast, h1, h2, h3⟩ := hval
  unfold parseDfLine parseDfTokens
  rw [if_pos hlen, hlast]
  rw [if_pos (Or.inr ⟨Or.inl rfl, Or.inr (Or.inr rfl)⟩)]
  obtain ⟨t, ht⟩ := Option.isSome_iff_exists.mp h1
  obtain ⟨u, hu⟩ := Option.isSome_iff_exists.mp h2
  obtain ⟨a, ha⟩ := Option.isSome_iff_exists.mp h3
  rw [ht, hu, ha]
  rfl

/-- If some line of the df output parses for `path`, the loop returns a
row. -/
theorem findDfData_isSome_of_mem (path : String) (lines : List String)
    (l : String) (hmem : l ∈ lines)
    (hl : (parseDfLine path l).isSome = true) :
    (findDfData path lines).isSome = true := by
  induction lines with
  | nil => cases hmem
  | cons x xs ih =>
    rcases List.mem_cons.mp hmem with h | h
    · subst h
      obtain ⟨v, hv⟩ := Option.isSome_iff_exists.mp hl
      simp [findDfData, hv]
    · cases hx : parseDfLine path x with
      | some v => simp [findDfData, hx]
      | none => simpa [findDfData, hx] using ih h

/-- C5 amended: resolution of `/storage/emulated/0` succeeds (some row
is returned) whenever the df lines contain a valid row with mount point
`/sdcard` — the alias set is applied symmetrically to the volume path
and the df mount point.  The returned row is the first row whose mount
point lies in the alias set, which need not be the `/sdcard` row (see
the counterexample). -/
theorem c5_alias_resolution_succeeds (lines : List String)
    (h : ∃ l ∈ lines, validRowWithMount l "/sdcard") :
    (findDfData "/storage/emulated/0" lines).isSome = true := by
  obtain ⟨l, hmem, hval⟩ := h
  exact findDfData_isSome_of_mem _ lines l hmem (parseDfLine_sdcard_isSome l hval)

/-- Witness for C5 amended at a one-line df output. -/
theorem c5_witness :
    (findDfData "/storage/emulated/0" ["fs 100 40 55 40% /sdcard"]).isSome = true :=
  c5_alias_resolution_succeeds ["fs 100 40 55 40% /sdcard"]
    ⟨"fs 100 40 55 40% /sdcard", by decide, by decide⟩

/-- C5 counterexample: the df lines contain a valid `/sdcard` row
(data 100/40/55) and no row mounted at `/storage/emulated/0`, yet
resolution returns the earlier `/storage/emulated` alias row
(data 1/2/3), not the `/sdcard` row. -/
theorem c5_counterexample :
    (∃ l ∈ ["fs 1 2 3 0% /storage/emulated", "fs 100 40 55 40% /sdcard"],
        validRowWithMount l "/sdcard") ∧
    (∀ l ∈ ["fs 1 2 3 0% /storage/emulated", "fs 100 40 55 40% /sdcard"],
        (pySplitWs l).getLastD "" ≠ "/storage/emulated/0") ∧
    parseDfLine "/storage/emulated/0" "fs 100 40 55 40% /sdcard" = some (100, 40, 55) ∧
    findDfData "/storage/emulated/0"
      ["fs 1 2 3 0% /storage/emulated", "fs 100 40 55 40% /sdcard"] = some (1, 2, 3) ∧
    some ((1 : ℤ), (2 : ℤ), (3 : ℤ)) ≠ some ((100 : ℤ), (40 : ℤ), (55 : ℤ)) :=
  ⟨⟨"fs 100 40 55 40% /sdcard", by decide, by decide⟩, by decide, by decide, by decide, by decide⟩

/-! ### C3 -/

/-- C3 counterexample: on the seven-token line
`"9 8 100 40 55 40% /m"` the last token is the mount point, so the
standard six columns are the trailing six and the total/used/available
columns hold 100/40/55; the parser instead reads the second, third and
fourth tokens of the whole line, yielding 8/100/40 — extra leading
columns are not tolerated. -/
theorem c3_counterexample :
    parseDfLine "/m" "9 8 100 40 55 40% /m" = some (8, 100, 40) ∧
    some ((8 : ℤ), (100 : ℤ), (40 : ℤ)) ≠ some ((100 : ℤ), (40 : ℤ), (55 : ℤ)) :=
  ⟨by decide, by decide⟩

/-- C3 amended: the parser takes the mount point from the last token and
totalKB/usedKB/availableKB from the second, third and fourth tokens of
the line; extra columns are tolerated only between the fourth token and
the final mount-point token, not before the numeric columns.  The
six-token example `"dev 100 40 55 40% /sdcard"` yields mount point
`/sdcard` and 100/40/55. -/
theorem c3_df_parse_left_anchored :
    parseDfLine "/sdcard" "dev 100 40 55 40% /sdcard" = some (100, 40, 55) ∧
    ∀ (fs mp s1 s2 s3 : String) (extra : List String) (t u a : ℤ),
      extra ≠ [] → pyToInt s1 = some t → pyToInt s2 = some u → pyToInt s3 = some a →
      parseDfTokens mp ([fs, s1, s2, s3] ++ extra ++ [mp]) = some (t, u, a) := by
  refine ⟨by decide, ?_⟩
  intro fs mp s1 s2 s3 extra t u a hex h1 h2 h3
  have hex1 : 1 ≤ extra.length := List.length_pos.mpr hex
  have hlen : 6 ≤ ([fs, s1, s2, s3] ++ extra ++ [mp]).length := by
    simp only [List.length_append, List.length_cons, List.length_singleton,
      List.length_nil]
    omega
  have hlast : ([fs, s1, s2, s3] ++ extra ++ [mp]).getLastD "" = mp :=
    List.getLastD_concat _ _ _
  unfold parseDfTokens
  rw [if_pos hlen, hlast, if_pos (Or.inl rfl)]
  have hd1 : ([fs, s1, s2, s3] ++ extra ++ [mp]).getD 1 "" = s1 := by
    simp [List.cons_append]
  have hd2 : ([fs, s1, s2, s3] ++ extra ++ [mp]).getD 2 "" = s2 := by
    simp [List.cons_append]
  have hd3 : ([fs, s1, s2, s3] ++ extra ++ [mp]).getD 3 "" = s3 := by
    simp [List.cons_append]
  rw [hd1, hd2, hd3, h1, h2, h3]

/-- Witness for C3 amended: a seven-token row with its usual use%
column between the numeric columns and the mount point. -/
theorem c3_witness :
    parseDfTokens "/data" (["dev", "300", "120", "180"] ++ ["40%"] ++ ["/data"])
      = some (300, 120, 180) :=
  c3_df_parse_left_anchored.2 "dev" "/data" "300" "120" "180" ["40%"] 300 120 180
    (by decide) (by decide) (by decide) (by decide)

/-! ### C2 -/

/-- Modelled from the spec: the claimed multiplier selected by the
trailing unit letter (case-insensitive): `G` → 2^30, `M` → 2^20,
`K` → 2^10, `B` → 1, anything else → 0.  Compared below against the
source's size parser. -/
def specUnitMult (c : Char) : ℚ :=
  if c.toUpper = 'G' then 2 ^ 30
  else if c.toUpper = 'M' then 2 ^ 20
  else if c.toUpper = 'K' then 2 ^ 10
  else if c.toUpper = 'B' then 1
  else 0

/-- C2: the size parser multiplies the decimal prefix by the claimed
per-letter multiplier (any trailing letter other than G/M/K/B giving 0),
parses a unit-less decimal as plain bytes, maps `"1.5G"`, `"512K"` and
`"10"` to the claimed byte counts, and ranks items sized
`10M`, `1G`, `500K` in the descending order 1G, 10M, 500K. -/
theorem c2_size_unit_normalization :
    (∀ (s : String) (v : ℚ) (c : Char), pyFloat s = some v → c.isAlpha = true →
      parseSizeBytes (String.mk (s.data ++ [c])) = some (v * specUnitMult c)) ∧
    (∀ (s : String) (v : ℚ), pyFloat s = some v →
      (∀ c, s.data.getLast? = some c → c.isAlpha = false) →
      parseSizeBytes s = some v) ∧
    parseSizeBytes "1.5G" = some (3 / 2 * 2 ^ 30) ∧
    parseSizeBytes "512K" = some (512 * 2 ^ 10) ∧
    parseSizeBytes "10" = some 10 ∧
    get_top_large_folders "/s" 5 adbRankThree = ["1G /s/b", "10M /s/a", "500K /s/c"] := by
  refine ⟨?_, ?_, by with_unfolding_all rfl, by with_unfolding_all rfl, by decide,
    by with_unfolding_all rfl⟩
  · intro s v c hv hc
    have hlast : (s.data ++ [c]).getLast? = some c := List.getLast?_concat _
    have hdrop : (s.data ++ [c]).dropLast = s.data := List.dropLast_concat
    unfold parseSizeBytes
    simp only [hlast, hdrop, hc, if_true]
    rw [show String.mk s.data = s from rfl, hv]
    unfold specUnitMult
    split_ifs <;> norm_num
  · intro s v hv hc
    cases hl : s.data.getLast? with
    | none =>
      exfalso
      have hnil : s.data = [] := List.getLast?_eq_none_iff.mp hl
      have hs : s = "" := by cases s; simp_all
      rw [hs] at hv
      rw [show pyFloat "" = none from rfl] at hv
      exact Option.noConfusion hv
    | some c =>
      have hfalse : c.isAlpha = false := hc c hl
      unfold parseSizeBytes
      simp only [hl, hfalse]
      simp [hv]

/-- Witness for C2: a unit-less prefix `"7"` with the `K` suffix. -/
theorem c2_witness :
    parseSizeBytes (String.mk ("7".data ++ ['K'])) = some (7 * specUnitMult 'K') :=
  c2_size_unit_normalization.1 "7" 7 'K' (by decide) (by decide)

/-! ### C4 -/

/-- The ranker's result is the display-string projection of the ranked
pairs; the source's early returns coincide with the compositional form. -/
theorem get_top_eq (path : String) (count : ℕ) (adb : String → CmdResult) :
    get_top_large_folders path count adb =
      (rankedPairs path count adb).map (fun x => x.2) := by
  unfold get_top_large_folders rankedPairs parsedEntries
  cases hls : (adb (lsCmd path)).success with
  | false => simp [hls]
  | true =>
    simp only [hls, if_true]
    by_cases hit : potentialItems path (adb (lsCmd path)).stdout = []
    · simp [hit, folderSizesRaw]
    · simp [hit]

/-- C4: the ranked list is the projection of the sorted-truncated pairs;
its length is `min count` (number of successfully parsed entries);
the ranked pairs are sorted descending by byte size; and the ranked
pairs plus some rest permute the parsed entries with every rest element
no larger than every ranked element — the result is exactly the largest
parsed entries.  Entries that fail to parse never enter
`parsedEntries` (they are excluded, not treated as zero). -/
theorem c4_top_n (path : String) (count : ℕ) (adb : String → CmdResult) :
    get_top_large_folders path count adb =
      (rankedPairs path count adb).map (fun x => x.2) ∧
    (get_top_large_folders path count adb).length =
      min count (parsedEntries path adb).length ∧
    List.Sorted sortRel (rankedPairs path count adb) ∧
    ∃ rest, List.Perm (rankedPairs path count adb ++ rest) (parsedEntries path adb) ∧
      ∀ x ∈ rankedPairs path count adb, ∀ y ∈ rest, y.1 ≤ x.1 := by
  have heq := get_top_eq path count adb
  have hsorted : List.Sorted sortRel ((parsedEntries path adb).insertionSort sortRel) :=
    List.sorted_insertionSort sortRel _
  refine ⟨heq, ?_, ?_, ?_⟩
  · rw [heq, List.length_map]
    unfold rankedPairs
    rw [List.length_take, List.length_insertionSort]
  · exact List.Pairwise.sublist (List.take_sublist _ _) hsorted
  · refine ⟨((parsedEntries path adb).insertionSort sortRel).drop count, ?_, ?_⟩
    · unfold rankedPairs
      rw [List.take_append_drop]
      exact List.perm_insertionSort sortRel _
    · intro x hx y hy
      have hra : rankedPairs path count adb =
          ((parsedEntries path adb).insertionSort sortRel).take count := rfl
      rw [hra] at hx
      have hpw : List.Pairwise sortRel
          (((parsedEntries path adb).insertionSort sortRel).take count ++
            ((parsedEntries path adb).insertionSort sortRel).drop count) := by
        rw [List.take_append_drop]
        exact hsorted
      exact (List.pairwise_append.mp hpw).2.2 x hx y hy

/-- Witness for C4: eight parsed items with `topN = 5` give the five
largest in descending order; two items with `topN = 5` give both. -/
theorem c4_witness :
    (get_top_large_folders "/t" 5 adbRankEight).length =
      min 5 (parsedEntries "/t" adbRankEight).length ∧
    get_top_large_folders "/t" 5 adbRankEight =
      ["8 /t/b", "7 /t/f", "6 /t/d", "5 /t/g", "4 /t/h"] ∧
    get_top_large_folders "/u" 5 adbRankTwo = ["2 /u/x", "1 /u/y"] :=
  ⟨(c4_top_n "/t" 5 adbRankEight).2.1, by decide, by decide⟩

/-! ### C8 -/

/-- Every parsed pair's display string is a size string joined to one of
the listed child paths. -/
theorem mem_parsedEntries_exists (path : String) (adb : String → CmdResult)
    (x : ℚ × String) (hx : x ∈ parsedEntries path adb) :
    ∃ item ∈ potentialItems path (adb (lsCmd path)).stdout, ∃ sizeStr,
      x.2 = sizeStr ++ " " ++ item := by
  unfold parsedEntries at hx
  by_cases hls : (adb (lsCmd path)).success = true
  · rw [if_pos hls] at hx
    unfold folderSizesRaw at hx
    obtain ⟨item, hmem, hf⟩ := List.mem_filterMap.mp hx
    refine ⟨item, hmem, ?_⟩
    by_cases hcond : (adb (duCmd item)).success = true ∧ (adb (duCmd item)).stdout ≠ ""
    · rw [if_pos hcond] at hf
      cases hp : parseDuStdout (adb (duCmd item)).stdout with
      | none => rw [hp] at hf; exact absurd hf (by simp)
      | some bs =>
        obtain ⟨b, sizeStr⟩ := bs
        rw [hp] at hf
        refine ⟨sizeStr, ?_⟩
        have hxe : (b, sizeStr ++ " " ++ item) = x := by
          simpa using hf
        rw [← hxe]
    · rw [if_neg hcond] at hf
      exact absurd hf (by simp)
  · rw [if_neg hls] at hx
    cases hx

/-- Every returned display string is the projection of a parsed pair. -/
theorem mem_get_top_exists (path : String) (count : ℕ) (adb : String → CmdResult)
    (r : String) (hr : r ∈ get_top_large_folders path count adb) :
    ∃ x ∈ parsedEntries path adb, r = x.2 := by
  rw [get_top_eq] at hr
  obtain ⟨x, hx, hxr⟩ := List.mem_map.mp hr
  have hx1 : x ∈ (parsedEntries path adb).insertionSort sortRel :=
    List.mem_of_mem_take hx
  exact ⟨x, (List.perm_insertionSort sortRel _).subset hx1, hxr.symm⟩

/-- C8: the `.` and `..` links never survive the entry filter, so no
disk-usage query is issued for them (every queried child path comes from
a kept entry name) and every ranked result displays a kept entry's path. -/
theorem c8_dot_entries_excluded (path : String) (count : ℕ)
    (adb : String → CmdResult) :
    "." ∉ entryNames (adb (lsCmd path)).stdout ∧
    ".." ∉ entryNames (adb (lsCmd path)).stdout ∧
    (∀ q ∈ potentialItems path (adb (lsCmd path)).stdout,
      ∃ n ∈ entryNames (adb (lsCmd path)).stdout,
        n ≠ "." ∧ n ≠ ".." ∧ q = replaceBS (osJoin path n)) ∧
    (∀ r ∈ get_top_large_folders path count adb,
      ∃ n ∈ entryNames (adb (lsCmd path)).stdout, ∃ s,
        n ≠ "." ∧ n ≠ ".." ∧ r = s ++ " " ++ replaceBS (osJoin path n)) := by
  have hnm : ∀ n ∈ entryNames (adb (lsCmd path)).stdout, n ≠ "." ∧ n ≠ ".." := by
    intro n hn
    have h2 := (List.mem_filter.mp hn).2
    simp only [decide_eq_true_eq] at h2
    exact ⟨h2.2.1, h2.2.2⟩
  refine ⟨?_, ?_, ?_, ?_⟩
  · intro h
    exact absurd rfl (hnm "." h).1
  · intro h
    exact absurd rfl (hnm ".." h).2
  · intro q hq
    obtain ⟨n, hn, hqn⟩ := List.mem_map.mp hq
    exact ⟨n, hn, (hnm n hn).1, (hnm n hn).2, hqn.symm⟩
  · intro r hr
    obtain ⟨x, hx, hrx⟩ := mem_get_top_exists path count adb r hr
    obtain ⟨item, hitem, sizeStr, hxs⟩ := mem_parsedEntries_exists path adb x hx
    obtain ⟨n, hn, hin⟩ := List.mem_map.mp hitem
    exact ⟨n, hn, sizeStr, (hnm n hn).1, (hnm n hn).2, by rw [hrx, hxs, ← hin]⟩

/-- Witness for C8: a listing that includes `.` and `..` yields a ranked
result drawn from the single real entry. -/
theorem c8_witness :
    ("." ∉ entryNames (adbLsDots (lsCmd "/s")).stdout) ∧
    (∃ n ∈ entryNames (adbLsDots (lsCmd "/s")).stdout, ∃ s,
      n ≠ "." ∧ n ≠ ".." ∧ "3 /s/x" = s ++ " " ++ replaceBS (osJoin "/s" n)) :=
  ⟨(c8_dot_entries_excluded "/s" 5 adbLsDots).1,
   (c8_dot_entries_excluded "/s" 5 adbLsDots).2.2.2 "3 /s/x" (by decide)⟩
